import Mathlib

/-!
Verification of the sequential binary payload decoder in src/utils/payload.py
(class BinaryPayloadDecoder).  The Python object state {_payload, _pointer,
_endian} is embedded as a structure over a list of byte values; each decode
method, which mutates the pointer and then unpacks a slice, becomes a pure
function returning the updated state together with the result.  The struct
module and the bit packing helpers are external collaborators; they are
embedded from their documented contracts.
-/

namespace Modpy

/-- Byte order selector, mirroring pymodbus Endian.Big and Endian.Little. -/
inductive Endian
  | big
  | little
deriving DecidableEq, Repr

/-- The error kinds surfaced to callers: ParameterException from the factory
classmethods, and the error the struct module raises when unpack receives a
slice whose length does not match the format width or pack receives an
out-of-range value. -/
inductive PyErr
  | parameterException
  | structError
deriving DecidableEq, Repr

/-- Python slicing l[a:b] for nonnegative indices: clamps at the ends and
never fails. -/
def pySlice (l : List Nat) (a b : Nat) : List Nat :=
  (l.take b).drop a

/-- Big-endian accumulation of a byte list into a natural number. -/
def bytesToNat (l : List Nat) : Nat :=
  l.foldl (fun acc b => acc * 256 + b) 0

/-- The w big-endian bytes of x (meaningful when x < 256 ^ w). -/
def natToBytesBE : Nat → Nat → List Nat
  | 0, _ => []
  | w + 1, x => natToBytesBE w (x / 256) ++ [x % 256]

/-- Byte sequence in wire order for the given byte order: big-endian is the
big-endian byte list itself, little-endian reverses it. -/
def orderBytes (e : Endian) (l : List Nat) : List Nat :=
  match e with
  | .big => l
  | .little => l.reverse

/-- Two's-complement reinterpretation of an unsigned w-byte value. -/
def toSigned (w : Nat) (u : Nat) : Int :=
  if u < 2 ^ (8 * w - 1) then (u : Int) else (u : Int) - 2 ^ (8 * w)

/-- Models struct.unpack with an explicit byte-order character and an unsigned
integer format of width w bytes: errors unless the data has exactly w bytes,
otherwise reads the bytes under the given order. -/
def unpack_uint (w : Nat) (e : Endian) (h : List Nat) : Except PyErr Nat :=
  if h.length = w then .ok (bytesToNat (orderBytes e h)) else .error .structError

/-- Models struct.unpack for the signed integer formats: exact-width check,
then two's-complement reinterpretation. -/
def unpack_int (w : Nat) (e : Endian) (h : List Nat) : Except PyErr Int :=
  if h.length = w then .ok (toSigned w (bytesToNat (orderBytes e h)))
  else .error .structError

/-- Models struct.unpack for the IEEE-754 float formats.  An IEEE binary32 or
binary64 value is represented exactly by its raw bit pattern (this is a
bijection onto w-byte words, and keeps minus zero, NaN payloads and the
infinities distinct), so unpacking returns the pattern read under the given
byte order. -/
def unpack_ieee (w : Nat) (e : Endian) (h : List Nat) : Except PyErr Nat :=
  if h.length = w then .ok (bytesToNat (orderBytes e h)) else .error .structError

/-- Modelled from the spec: the matching reference encoder for unsigned
values of width w under byte order e (struct.pack with the corresponding
unsigned format), used to state the round-trip law; no encoder exists in
src/. -/
def pack_uint (w : Nat) (e : Endian) (x : Nat) : List Nat :=
  orderBytes e (natToBytesBE w x)

/-- Modelled from the spec: the matching reference encoder for signed values,
packing the two's-complement residue of the value. -/
def pack_int (w : Nat) (e : Endian) (i : Int) : List Nat :=
  pack_uint w e ((i % 2 ^ (8 * w)).toNat)

/-- Models struct.pack(endian + H, x) as called by fromRegisters: two bytes
under the given order, erroring when x is outside the 16-bit range. -/
def pack_H (e : Endian) (x : Nat) : Except PyErr (List Nat) :=
  if x < 65536 then .ok (pack_uint 2 e x) else .error .structError

/-- One byte from up to eight booleans, least significant bit first, as
produced by the pymodbus pack_bitstring collaborator. -/
def packCoilByte (bits : List Bool) : Nat :=
  bits.foldr (fun b acc => (if b then 1 else 0) + 2 * acc) 0

/-- Models the pymodbus pack_bitstring collaborator: booleans packed eight
per byte, least significant bit first, with a final partial byte kept
low-aligned. -/
def pack_bitstring : List Bool → List Nat
  | [] => []
  | b :: rest =>
    packCoilByte ((b :: rest).take 8) :: pack_bitstring ((b :: rest).drop 8)
  termination_by l => l.length
  decreasing_by simp; omega

/-- Models the pymodbus unpack_bitstring collaborator: every byte expands to
eight booleans, least significant bit first; an empty slice gives an empty
list. -/
def unpack_bitstring (l : List Nat) : List Bool :=
  l.flatMap (fun b => (List.range 8).map (fun i => Nat.testBit b i))

/-- The decoder state: the payload byte string, the cursor (called _pointer in
the source) and the configured byte order. -/
structure BinaryPayloadDecoder where
  payload : List Nat
  pointer : Nat
  endian : Endian
deriving DecidableEq, Repr

/-- The constructor: stores the payload, sets the pointer to zero and records
the byte order. -/
def BinaryPayloadDecoder.new (payload : List Nat) (endian : Endian) :
    BinaryPayloadDecoder :=
  ⟨payload, 0, endian⟩

/-- The dynamically-typed argument of fromRegisters: either a Python list of
register words or some non-list value (a scalar), mirroring the isinstance
check in the source. -/
inductive RegInput
  | scalar (n : Int)
  | list (regs : List Nat)
deriving DecidableEq, Repr

/-- The dynamically-typed argument of fromCoils. -/
inductive CoilInput
  | scalar (n : Int)
  | list (coils : List Bool)
deriving DecidableEq, Repr

/-- The join of pack(endian + H, x) over the registers, left to right, first
error wins — the flat repacking loop of fromRegisters. -/
def packRegisters (e : Endian) : List Nat → Except PyErr (List Nat)
  | [] => .ok []
  | r :: rs => do
    let c ← pack_H e r
    let rest ← packRegisters e rs
    pure (c ++ rest)

/-- fromRegisters: on a list, repack every register into two bytes and
concatenate, then construct a decoder over the result; on a non-list raise
ParameterException. -/
def BinaryPayloadDecoder.fromRegisters (registers : RegInput) (endian : Endian) :
    Except PyErr BinaryPayloadDecoder :=
  match registers with
  | .list regs => do
    let payload ← packRegisters endian regs
    pure ⟨payload, 0, endian⟩
  | .scalar _ => .error .parameterException

/-- fromCoils: on a list, bit-pack the coils into bytes and construct a
decoder; on a non-list raise ParameterException. -/
def BinaryPayloadDecoder.fromCoils (coils : CoilInput) (endian : Endian) :
    Except PyErr BinaryPayloadDecoder :=
  match coils with
  | .list bs => .ok ⟨pack_bitstring bs, 0, endian⟩
  | .scalar _ => .error .parameterException

/-- reset: sets the pointer back to zero. -/
def BinaryPayloadDecoder.reset (s : BinaryPayloadDecoder) : BinaryPayloadDecoder :=
  { s with pointer := 0 }

/-- decode_8bit_uint: pointer += 1, then unpack the one-byte slice
payload[pointer - 1 : pointer] as an unsigned byte. -/
def BinaryPayloadDecoder.decode_8bit_uint (s : BinaryPayloadDecoder) :
    BinaryPayloadDecoder × Except PyErr Nat :=
  let p := s.pointer + 1
  ({ s with pointer := p }, unpack_uint 1 s.endian (pySlice s.payload (p - 1) p))

/-- decode_bits: pointer += 1, then expand the one-byte slice to booleans via
the unpack_bitstring collaborator (which never fails and yields eight bits
per available byte). -/
def BinaryPayloadDecoder.decode_bits (s : BinaryPayloadDecoder) :
    BinaryPayloadDecoder × List Bool :=
  let p := s.pointer + 1
  ({ s with pointer := p }, unpack_bitstring (pySlice s.payload (p - 1) p))

/-- decode_16bit_uint: pointer += 2, then unpack payload[pointer - 2 : pointer]
as an unsigned 16-bit value. -/
def BinaryPayloadDecoder.decode_16bit_uint (s : BinaryPayloadDecoder) :
    BinaryPayloadDecoder × Except PyErr Nat :=
  let p := s.pointer + 2
  ({ s with pointer := p }, unpack_uint 2 s.endian (pySlice s.payload (p - 2) p))

/-- decode_32bit_uint: format character I, four bytes. -/
def BinaryPayloadDecoder.decode_32bit_uint (s : BinaryPayloadDecoder) :
    BinaryPayloadDecoder × Except PyErr Nat :=
  let p := s.pointer + 4
  ({ s with pointer := p }, unpack_uint 4 s.endian (pySlice s.payload (p - 4) p))

/-- decode_32bit_ulong: format character L, which with an explicit byte-order
prefix is the standard four-byte unsigned format, identical to I. -/
def BinaryPayloadDecoder.decode_32bit_ulong (s : BinaryPayloadDecoder) :
    BinaryPayloadDecoder × Except PyErr Nat :=
  let p := s.pointer + 4
  ({ s with pointer := p }, unpack_uint 4 s.endian (pySlice s.payload (p - 4) p))

/-- decode_64bit_uint: format character Q, eight bytes. -/
def BinaryPayloadDecoder.decode_64bit_uint (s : BinaryPayloadDecoder) :
    BinaryPayloadDecoder × Except PyErr Nat :=
  let p := s.pointer + 8
  ({ s with pointer := p }, unpack_uint 8 s.endian (pySlice s.payload (p - 8) p))

/-- decode_8bit_int: signed byte. -/
def BinaryPayloadDecoder.decode_8bit_int (s : BinaryPayloadDecoder) :
    BinaryPayloadDecoder × Except PyErr Int :=
  let p := s.pointer + 1
  ({ s with pointer := p }, unpack_int 1 s.endian (pySlice s.payload (p - 1) p))

/-- decode_16bit_int: signed 16-bit value. -/
def BinaryPayloadDecoder.decode_16bit_int (s : BinaryPayloadDecoder) :
    BinaryPayloadDecoder × Except PyErr Int :=
  let p := s.pointer + 2
  ({ s with pointer := p }, unpack_int 2 s.endian (pySlice s.payload (p - 2) p))

/-- decode_32bit_int: format character i, four bytes signed. -/
def BinaryPayloadDecoder.decode_32bit_int (s : BinaryPayloadDecoder) :
    BinaryPayloadDecoder × Except PyErr Int :=
  let p := s.pointer + 4
  ({ s with pointer := p }, unpack_int 4 s.endian (pySlice s.payload (p - 4) p))

/-- decode_32bit_long: format character l, the standard four-byte signed
format under a byte-order prefix, identical to i. -/
def BinaryPayloadDecoder.decode_32bit_long (s : BinaryPayloadDecoder) :
    BinaryPayloadDecoder × Except PyErr Int :=
  let p := s.pointer + 4
  ({ s with pointer := p }, unpack_int 4 s.endian (pySlice s.payload (p - 4) p))

/-- decode_64bit_int: format character q, eight bytes signed. -/
def BinaryPayloadDecoder.decode_64bit_int (s : BinaryPayloadDecoder) :
    BinaryPayloadDecoder × Except PyErr Int :=
  let p := s.pointer + 8
  ({ s with pointer := p }, unpack_int 8 s.endian (pySlice s.payload (p - 8) p))

/-- decode_32bit_float: format character f; the IEEE binary32 result is
represented by its raw 32-bit pattern. -/
def BinaryPayloadDecoder.decode_32bit_float (s : BinaryPayloadDecoder) :
    BinaryPayloadDecoder × Except PyErr Nat :=
  let p := s.pointer + 4
  ({ s with pointer := p }, unpack_ieee 4 s.endian (pySlice s.payload (p - 4) p))

/-- decode_64bit_float: format character d; the IEEE binary64 result is
represented by its raw 64-bit pattern. -/
def BinaryPayloadDecoder.decode_64bit_float (s : BinaryPayloadDecoder) :
    BinaryPayloadDecoder × Except PyErr Nat :=
  let p := s.pointer + 8
  ({ s with pointer := p }, unpack_ieee 8 s.endian (pySlice s.payload (p - 8) p))

/-- decode_string: pointer += size, then return the raw slice
payload[pointer - size : pointer].  Python slicing never fails, so the result
is whatever bytes are available, possibly fewer than size. -/
def BinaryPayloadDecoder.decode_string (s : BinaryPayloadDecoder) (size : Nat) :
    BinaryPayloadDecoder × List Nat :=
  let p := s.pointer + size
  ({ s with pointer := p }, pySlice s.payload (p - size) p)

/-- A name for each decode method of the class, so that properties shared by
every operation can be stated once. -/
inductive DecodeOp
  | u8
  | bits
  | u16
  | u32
  | ul32
  | u64
  | i8
  | i16
  | i32
  | l32
  | i64
  | f32
  | f64
  | str (size : Nat)
deriving DecidableEq, Repr

/-- The dynamically-typed result of a decode call. -/
inductive PyVal
  | uintVal (n : Nat)
  | intVal (i : Int)
  | bitsVal (bs : List Bool)
  | strVal (bs : List Nat)
  | floatVal (bits : Nat)
deriving DecidableEq, Repr

/-- The byte width each operation adds to the pointer. -/
def DecodeOp.width : DecodeOp → Nat
  | .u8 => 1
  | .bits => 1
  | .u16 => 2
  | .u32 => 4
  | .ul32 => 4
  | .u64 => 8
  | .i8 => 1
  | .i16 => 2
  | .i32 => 4
  | .l32 => 4
  | .i64 => 8
  | .f32 => 4
  | .f64 => 8
  | .str n => n

/-- Whether the operation funnels its slice through struct.unpack (every
operation except decode_bits and decode_string). -/
def DecodeOp.usesStruct : DecodeOp → Bool
  | .bits => false
  | .str _ => false
  | _ => true

/-- Dispatch a decode operation against a decoder state. -/
def runOp (op : DecodeOp) (s : BinaryPayloadDecoder) :
    BinaryPayloadDecoder × Except PyErr PyVal :=
  match op with
  | .u8 => let r := s.decode_8bit_uint; (r.1, r.2.map .uintVal)
  | .bits => let r := s.decode_bits; (r.1, .ok (.bitsVal r.2))
  | .u16 => let r := s.decode_16bit_uint; (r.1, r.2.map .uintVal)
  | .u32 => let r := s.decode_32bit_uint; (r.1, r.2.map .uintVal)
  | .ul32 => let r := s.decode_32bit_ulong; (r.1, r.2.map .uintVal)
  | .u64 => let r := s.decode_64bit_uint; (r.1, r.2.map .uintVal)
  | .i8 => let r := s.decode_8bit_int; (r.1, r.2.map .intVal)
  | .i16 => let r := s.decode_16bit_int; (r.1, r.2.map .intVal)
  | .i32 => let r := s.decode_32bit_int; (r.1, r.2.map .intVal)
  | .l32 => let r := s.decode_32bit_long; (r.1, r.2.map .intVal)
  | .i64 => let r := s.decode_64bit_int; (r.1, r.2.map .intVal)
  | .f32 => let r := s.decode_32bit_float; (r.1, r.2.map .floatVal)
  | .f64 => let r := s.decode_64bit_float; (r.1, r.2.map .floatVal)
  | .str n => let r := s.decode_string n; (r.1, .ok (.strVal r.2))

/-- Run a sequence of decode calls left to right, collecting every result. -/
def runOps : List DecodeOp → BinaryPayloadDecoder →
    BinaryPayloadDecoder × List (Except PyErr PyVal)
  | [], s => (s, [])
  | op :: ops, s =>
    let r := runOp op s
    let rest := runOps ops r.1
    (rest.1, r.2 :: rest.2)

theorem length_natToBytesBE (w x : Nat) : (natToBytesBE w x).length = w := by
  induction w generalizing x with
  | zero => rfl
  | succ w ih => simp [natToBytesBE, ih]

theorem bytesToNat_append_singleton (l : List Nat) (b : Nat) :
    bytesToNat (l ++ [b]) = 256 * bytesToNat l + b := by
  rw [bytesToNat, bytesToNat, List.foldl_append]
  simp [Nat.mul_comm]

theorem bytesToNat_natToBytesBE (w x : Nat) (h : x < 2 ^ (8 * w)) :
    bytesToNat (natToBytesBE w x) = x := by
  induction w generalizing x with
  | zero =>
    simp [natToBytesBE, bytesToNat]
    omega
  | succ w ih =>
    have hp : 2 ^ (8 * (w + 1)) = 2 ^ (8 * w) * 256 := by
      rw [show 8 * (w + 1) = 8 * w + 8 by ring, pow_add]
      norm_num
    have hdiv : x / 256 < 2 ^ (8 * w) := by
      rw [Nat.div_lt_iff_lt_mul (by norm_num)]
      omega
    rw [natToBytesBE, bytesToNat_append_singleton, ih _ hdiv]
    omega

theorem length_orderBytes (e : Endian) (l : List Nat) :
    (orderBytes e l).length = l.length := by
  cases e <;> simp [orderBytes]

theorem orderBytes_orderBytes (e : Endian) (l : List Nat) :
    orderBytes e (orderBytes e l) = l := by
  cases e <;> simp [orderBytes]

theorem length_pack_uint (w : Nat) (e : Endian) (x : Nat) :
    (pack_uint w e x).length = w := by
  rw [pack_uint, length_orderBytes, length_natToBytesBE]

theorem length_pack_int (w : Nat) (e : Endian) (i : Int) :
    (pack_int w e i).length = w :=
  length_pack_uint w e _

theorem unpack_uint_pack (w : Nat) (e : Endian) (x : Nat) (h : x < 2 ^ (8 * w)) :
    unpack_uint w e (pack_uint w e x) = .ok x := by
  rw [unpack_uint, if_pos (length_pack_uint w e x), pack_uint, orderBytes_orderBytes,
    bytesToNat_natToBytesBE w x h]

theorem unpack_ieee_pack (w : Nat) (e : Endian) (x : Nat) (h : x < 2 ^ (8 * w)) :
    unpack_ieee w e (pack_uint w e x) = .ok x := by
  rw [unpack_ieee, if_pos (length_pack_uint w e x), pack_uint, orderBytes_orderBytes,
    bytesToNat_natToBytesBE w x h]

theorem unpack_int_pack_uint (w : Nat) (e : Endian) (u : Nat) (h : u < 2 ^ (8 * w)) :
    unpack_int w e (pack_uint w e u) = .ok (toSigned w u) := by
  rw [unpack_int, if_pos (length_pack_uint w e u), pack_uint, orderBytes_orderBytes,
    bytesToNat_natToBytesBE w u h]

theorem length_pySlice (l : List Nat) (a b : Nat) :
    (pySlice l a b).length = min b l.length - a := by
  simp [pySlice]

theorem pySlice_eq_drop_take (l : List Nat) (a w : Nat) :
    pySlice l a (a + w) = (l.drop a).take w := by
  rw [pySlice, List.drop_take]
  congr 1
  omega

theorem pySlice_exact (l : List Nat) (w : Nat) (h : l.length = w) :
    pySlice l 0 w = l := by
  subst h
  simp [pySlice]

theorem pySlice_mid (pre c rest : List Nat) :
    pySlice (pre ++ c ++ rest) pre.length (pre.length + c.length) = c := by
  rw [pySlice_eq_drop_take, List.append_assoc, List.drop_left, List.take_left]

theorem unpack_uint_short (w : Nat) (e : Endian) (h : List Nat)
    (hne : h.length ≠ w) : unpack_uint w e h = .error .structError := by
  rw [unpack_uint, if_neg hne]

theorem unpack_int_short (w : Nat) (e : Endian) (h : List Nat)
    (hne : h.length ≠ w) : unpack_int w e h = .error .structError := by
  rw [unpack_int, if_neg hne]

theorem unpack_ieee_short (w : Nat) (e : Endian) (h : List Nat)
    (hne : h.length ≠ w) : unpack_ieee w e h = .error .structError := by
  rw [unpack_ieee, if_neg hne]

theorem pySlice_short_length (l : List Nat) (p w : Nat) (hw : 0 < w)
    (h : l.length < p + w) : (pySlice l (p + w - w) (p + w)).length ≠ w := by
  rw [length_pySlice]
  omega

theorem runOp_pointer (op : DecodeOp) (s : BinaryPayloadDecoder) :
    (runOp op s).1.pointer = s.pointer + op.width := by
  cases op <;> rfl

theorem runOp_payload (op : DecodeOp) (s : BinaryPayloadDecoder) :
    (runOp op s).1.payload = s.payload := by
  cases op <;> rfl

theorem runOp_endian (op : DecodeOp) (s : BinaryPayloadDecoder) :
    (runOp op s).1.endian = s.endian := by
  cases op <;> rfl

theorem runOps_payload (ops : List DecodeOp) (s : BinaryPayloadDecoder) :
    (runOps ops s).1.payload = s.payload := by
  induction ops generalizing s with
  | nil => rfl
  | cons op ops ih => rw [runOps]; rw [ih, runOp_payload]

theorem runOps_endian (ops : List DecodeOp) (s : BinaryPayloadDecoder) :
    (runOps ops s).1.endian = s.endian := by
  induction ops generalizing s with
  | nil => rfl
  | cons op ops ih => rw [runOps]; rw [ih, runOp_endian]

theorem runOps_pointer_mono (ops : List DecodeOp) (s : BinaryPayloadDecoder) :
    s.pointer ≤ (runOps ops s).1.pointer := by
  induction ops generalizing s with
  | nil => exact Nat.le_refl _
  | cons op ops ih =>
    rw [runOps]
    refine Nat.le_trans ?_ (ih (runOp op s).1)
    rw [runOp_pointer]
    omega

theorem toSigned_emod_1 (i : Int) (h1 : -128 ≤ i) (h2 : i < 128) :
    toSigned 1 ((i % 2 ^ (8 * 1)).toNat) = i := by
  rw [toSigned]
  norm_num
  split <;> omega

theorem toSigned_emod_2 (i : Int) (h1 : -32768 ≤ i) (h2 : i < 32768) :
    toSigned 2 ((i % 2 ^ (8 * 2)).toNat) = i := by
  rw [toSigned]
  norm_num
  split <;> omega

theorem toSigned_emod_4 (i : Int) (h1 : -2147483648 ≤ i) (h2 : i < 2147483648) :
    toSigned 4 ((i % 2 ^ (8 * 4)).toNat) = i := by
  rw [toSigned]
  norm_num
  split <;> omega

theorem toSigned_emod_8 (i : Int) (h1 : -9223372036854775808 ≤ i)
    (h2 : i < 9223372036854775808) :
    toSigned 8 ((i % 2 ^ (8 * 8)).toNat) = i := by
  rw [toSigned]
  norm_num
  split <;> omega

theorem packRegisters_ok (e : Endian) (regs : List Nat)
    (h : ∀ x ∈ regs, x < 65536) :
    packRegisters e regs = .ok ((regs.map (pack_uint 2 e)).flatten) := by
  induction regs with
  | nil => rfl
  | cons r rs ih =>
    have hr : r < 65536 := h r (List.mem_cons_self r rs)
    have hrs : ∀ x ∈ rs, x < 65536 := fun x hx => h x (List.mem_cons_of_mem r hx)
    rw [packRegisters, pack_H, if_pos hr]
    rw [ih hrs]
    rfl

theorem except_bind_ok {α β : Type} (a : α) (f : α → Except PyErr β) :
    (Except.ok a >>= f) = f a := rfl

theorem except_bind_error {α β : Type} (err : PyErr) (f : α → Except PyErr β) :
    ((Except.error err : Except PyErr α) >>= f) = .error err := rfl

theorem packRegisters_not_param (e : Endian) (regs : List Nat) :
    packRegisters e regs ≠ .error .parameterException := by
  induction regs with
  | nil => simp [packRegisters]
  | cons r rs ih =>
    rw [packRegisters, pack_H]
    by_cases hr : r < 65536
    · rw [if_pos hr, except_bind_ok]
      cases hrec : packRegisters e rs with
      | ok l =>
        rw [except_bind_ok]
        intro hcontra
        exact Except.noConfusion hcontra
      | error err =>
        rw [except_bind_error]
        intro hcontra
        injection hcontra with h
        exact ih (by rw [hrec, h])
    · rw [if_neg hr, except_bind_error]
      intro hcontra
      injection hcontra with h
      exact PyErr.noConfusion h

theorem orderBytes_of_short (e : Endian) (l : List Nat) (h : l.length ≤ 1) :
    orderBytes e l = l := by
  cases e
  · rfl
  · rcases l with _ | ⟨b, _ | ⟨c, t⟩⟩
    · rfl
    · rfl
    · simp at h

theorem unpack_uint_1_endian (e1 e2 : Endian) (h : List Nat) :
    unpack_uint 1 e1 h = unpack_uint 1 e2 h := by
  rw [unpack_uint, unpack_uint]
  by_cases hl : h.length = 1
  · rw [if_pos hl, if_pos hl, orderBytes_of_short e1 h (by omega),
      orderBytes_of_short e2 h (by omega)]
  · rw [if_neg hl, if_neg hl]

theorem unpack_int_1_endian (e1 e2 : Endian) (h : List Nat) :
    unpack_int 1 e1 h = unpack_int 1 e2 h := by
  rw [unpack_int, unpack_int]
  by_cases hl : h.length = 1
  · rw [if_pos hl, if_pos hl, orderBytes_of_short e1 h (by omega),
      orderBytes_of_short e2 h (by omega)]
  · rw [if_neg hl, if_neg hl]

theorem unpack_uint_underrun (w : Nat) (e : Endian) (l : List Nat) (p : Nat)
    (hw : 0 < w) (h : l.length < p + w) :
    unpack_uint w e (pySlice l p (p + w)) = .error .structError := by
  apply unpack_uint_short
  rw [length_pySlice]
  omega

theorem unpack_int_underrun (w : Nat) (e : Endian) (l : List Nat) (p : Nat)
    (hw : 0 < w) (h : l.length < p + w) :
    unpack_int w e (pySlice l p (p + w)) = .error .structError := by
  apply unpack_int_short
  rw [length_pySlice]
  omega

theorem unpack_ieee_underrun (w : Nat) (e : Endian) (l : List Nat) (p : Nat)
    (hw : 0 < w) (h : l.length < p + w) :
    unpack_ieee w e (pySlice l p (p + w)) = .error .structError := by
  apply unpack_ieee_short
  rw [length_pySlice]
  omega

/-- C1: the claim is false on the code at a concrete input: decode_string
with size 5 over a three-byte buffer silently returns only three bytes (no
failure, a truncated result), and decode_16bit_uint on an empty buffer does
fail, but only after having advanced the cursor to 2. -/
theorem claim1_counterexample :
    ((⟨[1, 2, 3], 0, .big⟩ : BinaryPayloadDecoder).decode_string 5).2.length < 5 ∧
    ((⟨[], 0, .big⟩ : BinaryPayloadDecoder).decode_16bit_uint).1.pointer ≠ 0 ∧
    ((⟨[], 0, .big⟩ : BinaryPayloadDecoder).decode_16bit_uint).2 =
      .error .structError :=
  ⟨by decide, by decide, rfl⟩

/-- C1 (amended): when cursor + W exceeds the buffer length, every decode
operation still advances the cursor by W; the struct-backed operations then
fail with the struct unpack error (no out-of-bounds read and no truncated
value from them), while decode_string does not fail at all and returns only
the length(buffer) - cursor bytes that remain. -/
theorem claim1_underrun_amended :
    (∀ (op : DecodeOp) (s : BinaryPayloadDecoder),
        s.payload.length < s.pointer + op.width →
          (runOp op s).1.pointer = s.pointer + op.width) ∧
    (∀ (op : DecodeOp) (s : BinaryPayloadDecoder),
        op.usesStruct = true → s.payload.length < s.pointer + op.width →
          (runOp op s).2 = .error .structError) ∧
    (∀ (s : BinaryPayloadDecoder) (n : Nat),
        s.payload.length < s.pointer + n →
          (s.decode_string n).1.pointer = s.pointer + n ∧
          (s.decode_string n).2.length = s.payload.length - s.pointer) := by
  refine ⟨fun op s _ => runOp_pointer op s, ?_, ?_⟩
  · intro op s hstruct h
    cases op with
    | bits => simp [DecodeOp.usesStruct] at hstruct
    | str n => simp [DecodeOp.usesStruct] at hstruct
    | u8 =>
      have hh := unpack_uint_underrun 1 s.endian s.payload s.pointer (by norm_num) h
      simp only [runOp, BinaryPayloadDecoder.decode_8bit_uint, Nat.add_sub_cancel, hh]
      rfl
    | u16 =>
      have hh := unpack_uint_underrun 2 s.endian s.payload s.pointer (by norm_num) h
      simp only [runOp, BinaryPayloadDecoder.decode_16bit_uint, Nat.add_sub_cancel, hh]
      rfl
    | u32 =>
      have hh := unpack_uint_underrun 4 s.endian s.payload s.pointer (by norm_num) h
      simp only [runOp, BinaryPayloadDecoder.decode_32bit_uint, Nat.add_sub_cancel, hh]
      rfl
    | ul32 =>
      have hh := unpack_uint_underrun 4 s.endian s.payload s.pointer (by norm_num) h
      simp only [runOp, BinaryPayloadDecoder.decode_32bit_ulong, Nat.add_sub_cancel, hh]
      rfl
    | u64 =>
      have hh := unpack_uint_underrun 8 s.endian s.payload s.pointer (by norm_num) h
      simp only [runOp, BinaryPayloadDecoder.decode_64bit_uint, Nat.add_sub_cancel, hh]
      rfl
    | i8 =>
      have hh := unpack_int_underrun 1 s.endian s.payload s.pointer (by norm_num) h
      simp only [runOp, BinaryPayloadDecoder.decode_8bit_int, Nat.add_sub_cancel, hh]
      rfl
    | i16 =>
      have hh := unpack_int_underrun 2 s.endian s.payload s.pointer (by norm_num) h
      simp only [runOp, BinaryPayloadDecoder.decode_16bit_int, Nat.add_sub_cancel, hh]
      rfl
    | i32 =>
      have hh := unpack_int_underrun 4 s.endian s.payload s.pointer (by norm_num) h
      simp only [runOp, BinaryPayloadDecoder.decode_32bit_int, Nat.add_sub_cancel, hh]
      rfl
    | l32 =>
      have hh := unpack_int_underrun 4 s.endian s.payload s.pointer (by norm_num) h
      simp only [runOp, BinaryPayloadDecoder.decode_32bit_long, Nat.add_sub_cancel, hh]
      rfl
    | i64 =>
      have hh := unpack_int_underrun 8 s.endian s.payload s.pointer (by norm_num) h
      simp only [runOp, BinaryPayloadDecoder.decode_64bit_int, Nat.add_sub_cancel, hh]
      rfl
    | f32 =>
      have hh := unpack_ieee_underrun 4 s.endian s.payload s.pointer (by norm_num) h
      simp only [runOp, BinaryPayloadDecoder.decode_32bit_float, Nat.add_sub_cancel, hh]
      rfl
    | f64 =>
      have hh := unpack_ieee_underrun 8 s.endian s.payload s.pointer (by norm_num) h
      simp only [runOp, BinaryPayloadDecoder.decode_64bit_float, Nat.add_sub_cancel, hh]
      rfl
  · intro s n h
    refine ⟨rfl, ?_⟩
    show (pySlice s.payload (s.pointer + n - n) (s.pointer + n)).length =
      s.payload.length - s.pointer
    rw [Nat.add_sub_cancel, length_pySlice]
    omega

/-- Witness for the amended C1 theorem at concrete inputs. -/
theorem claim1_underrun_amended_witness :
    (runOp .u16 ⟨[], 0, .big⟩).2 = .error .structError ∧
    ((⟨[1, 2, 3], 0, .big⟩ : BinaryPayloadDecoder).decode_string 5).1.pointer = 5 ∧
    ((⟨[1, 2, 3], 0, .big⟩ : BinaryPayloadDecoder).decode_string 5).2.length = 3 := by
  refine ⟨claim1_underrun_amended.2.1 .u16 ⟨[], 0, .big⟩ rfl (by decide), ?_, ?_⟩
  · exact (claim1_underrun_amended.2.2 ⟨[1, 2, 3], 0, .big⟩ 5 (by decide)).1
  · have hh := (claim1_underrun_amended.2.2 ⟨[1, 2, 3], 0, .big⟩ 5 (by decide)).2
    simpa using hh

/-- C4: decode_32bit_ulong computes exactly the same state transition and the
same value as decode_32bit_uint, and decode_32bit_long the same as
decode_32bit_int, on every decoder state — the aliases are equivalent. -/
theorem claim4_alias_equivalence (s : BinaryPayloadDecoder) :
    s.decode_32bit_ulong = s.decode_32bit_uint ∧
    s.decode_32bit_long = s.decode_32bit_int :=
  ⟨rfl, rfl⟩

/-- C6: the claim is false on the code at a concrete input: decode_string
with size 5 on an empty buffer moves the cursor to 5, past the end of the
buffer, so the invariant cursor ≤ length(buffer) is not preserved. -/
theorem claim6_counterexample :
    ¬ ((runOp (.str 5) ⟨[], 0, .big⟩).1.pointer ≤
        (runOp (.str 5) ⟨[], 0, .big⟩).1.payload.length) := by
  decide

/-- C6 (amended): every decode operation advances the cursor by exactly its
byte width (decode_string by its size argument), the cursor never decreases
over any sequence of decode calls, and reset sets it to 0; but the upper
bound cursor ≤ length(buffer) is not an invariant, since operations advance
the cursor past the end when insufficient bytes remain. -/
theorem claim6_cursor_amended :
    (∀ (op : DecodeOp) (s : BinaryPayloadDecoder),
        (runOp op s).1.pointer = s.pointer + op.width) ∧
    (∀ (ops : List DecodeOp) (s : BinaryPayloadDecoder),
        s.pointer ≤ (runOps ops s).1.pointer) ∧
    (∀ s : BinaryPayloadDecoder, s.reset.pointer = 0) :=
  ⟨runOp_pointer, runOps_pointer_mono, fun _ => rfl⟩

/-- C7: reset sets the cursor to 0 and changes nothing else, it is
idempotent, and replaying any sequence of decode calls after a reset yields
exactly the results of the first run from a fresh decoder. -/
theorem claim7_reset_replay :
    (∀ s : BinaryPayloadDecoder, s.reset = ⟨s.payload, 0, s.endian⟩) ∧
    (∀ s : BinaryPayloadDecoder, s.reset.reset = s.reset) ∧
    (∀ (ops : List DecodeOp) (p : List Nat) (e : Endian),
        runOps ops ((runOps ops ⟨p, 0, e⟩).1.reset) = runOps ops ⟨p, 0, e⟩) := by
  refine ⟨?_, ?_, ?_⟩
  · intro s
    cases s
    rfl
  · intro s
    cases s
    rfl
  · intro ops p e
    have h : (runOps ops ⟨p, 0, e⟩).1.reset = ⟨p, 0, e⟩ := by
      have h1 := runOps_payload ops ⟨p, 0, e⟩
      have h2 := runOps_endian ops ⟨p, 0, e⟩
      cases hst : (runOps ops ⟨p, 0, e⟩).1 with
      | mk pl pt en =>
        rw [hst] at h1 h2
        simp only at h1 h2
        rw [BinaryPayloadDecoder.reset]
        simp [h1, h2]
    rw [h]

/-- C9: every decode operation leaves the payload buffer and the byte-order
configuration unchanged; the cursor is the only state component a decode
call modifies. -/
theorem claim9_decode_frame (op : DecodeOp) (s : BinaryPayloadDecoder) :
    (runOp op s).1.payload = s.payload ∧ (runOp op s).1.endian = s.endian :=
  ⟨runOp_payload op s, runOp_endian op s⟩

/-- C10: decode_8bit_uint and decode_8bit_int return the same value and move
the cursor identically on two decoders that differ only in their configured
byte order — the one-byte operations are independent of endianness. -/
theorem claim10_8bit_endian_independent (p : List Nat) (ptr : Nat) :
    (BinaryPayloadDecoder.decode_8bit_uint ⟨p, ptr, .big⟩).2 =
      (BinaryPayloadDecoder.decode_8bit_uint ⟨p, ptr, .little⟩).2 ∧
    (BinaryPayloadDecoder.decode_8bit_int ⟨p, ptr, .big⟩).2 =
      (BinaryPayloadDecoder.decode_8bit_int ⟨p, ptr, .little⟩).2 ∧
    (BinaryPayloadDecoder.decode_8bit_uint ⟨p, ptr, .big⟩).1.pointer =
      (BinaryPayloadDecoder.decode_8bit_uint ⟨p, ptr, .little⟩).1.pointer := by
  refine ⟨?_, ?_, rfl⟩
  · exact unpack_uint_1_endian .big .little (pySlice p (ptr + 1 - 1) (ptr + 1))
  · exact unpack_int_1_endian .big .little (pySlice p (ptr + 1 - 1) (ptr + 1))

/-- C2: fromRegisters serializes each in-range 16-bit register into exactly
two bytes under the chosen order and concatenates the chunks in sequence
order; decoding the two-register buffer with decode_16bit_uint under the
same order (big or little) returns the original register values in order. -/
theorem claim2_fromRegisters_roundtrip :
    (∀ (e : Endian) (regs : List Nat), (∀ x ∈ regs, x < 65536) →
        BinaryPayloadDecoder.fromRegisters (.list regs) e =
          .ok ⟨(regs.map (pack_uint 2 e)).flatten, 0, e⟩ ∧
        ∀ c ∈ regs.map (pack_uint 2 e), c.length = 2) ∧
    (∀ (e : Endian) (r1 r2 : Nat), r1 < 65536 → r2 < 65536 →
        ∃ d, BinaryPayloadDecoder.fromRegisters (.list [r1, r2]) e = .ok d ∧
          (d.decode_16bit_uint).2 = .ok r1 ∧
          ((d.decode_16bit_uint).1.decode_16bit_uint).2 = .ok r2) := by
  constructor
  · intro e regs h
    constructor
    · simp only [BinaryPayloadDecoder.fromRegisters]
      rw [packRegisters_ok e regs h]
      rfl
    · intro c hc
      rcases List.mem_map.mp hc with ⟨r, _, rfl⟩
      exact length_pack_uint 2 e r
  · intro e r1 r2 h1 h2
    have hall : ∀ x ∈ [r1, r2], x < 65536 := by
      intro x hx
      simp only [List.mem_cons, List.not_mem_nil, or_false] at hx
      rcases hx with rfl | rfl
      · exact h1
      · exact h2
    refine ⟨⟨pack_uint 2 e r1 ++ (pack_uint 2 e r2 ++ []), 0, e⟩, ?_, ?_, ?_⟩
    · simp only [BinaryPayloadDecoder.fromRegisters]
      rw [packRegisters_ok e [r1, r2] hall]
      rfl
    · show unpack_uint 2 e
        (pySlice (pack_uint 2 e r1 ++ (pack_uint 2 e r2 ++ [])) 0 2) = Except.ok r1
      have hs : pySlice (pack_uint 2 e r1 ++ (pack_uint 2 e r2 ++ [])) 0 2 =
          pack_uint 2 e r1 := by
        have hm := pySlice_mid [] (pack_uint 2 e r1) (pack_uint 2 e r2 ++ [])
        simpa [length_pack_uint] using hm
      rw [hs]
      exact unpack_uint_pack 2 e r1 (by norm_num; omega)
    · show unpack_uint 2 e
        (pySlice (pack_uint 2 e r1 ++ (pack_uint 2 e r2 ++ [])) 2 4) = Except.ok r2
      have hs : pySlice (pack_uint 2 e r1 ++ (pack_uint 2 e r2 ++ [])) 2 4 =
          pack_uint 2 e r2 := by
        have hm := pySlice_mid (pack_uint 2 e r1) (pack_uint 2 e r2) []
        simpa [length_pack_uint] using hm
      rw [hs]
      exact unpack_uint_pack 2 e r2 (by norm_num; omega)

/-- Witness for C2 at the spec's concrete example registers 0x0102, 0x0304. -/
theorem claim2_witness :
    ∃ d, BinaryPayloadDecoder.fromRegisters (.list [258, 772]) .big = .ok d ∧
      (d.decode_16bit_uint).2 = .ok 258 ∧
      ((d.decode_16bit_uint).1.decode_16bit_uint).2 = .ok 772 :=
  claim2_fromRegisters_roundtrip.2 .big 258 772 (by norm_num) (by norm_num)

/-- C3: the round-trip law.  For every byte order and every width, decoding
the bytes produced by the matching reference encoder returns the original
value exactly: unsigned 8, 16, 32 (both uint and ulong), 64-bit values over
their full ranges, signed 8, 16, 32 (both int and long), 64-bit values over
their full two's-complement ranges, and IEEE-754 binary32 and binary64
values over all bit patterns (hence including 0, minus 0, NaN and both
infinities). -/
theorem claim3_roundtrip_law :
    (∀ (e : Endian) (x : Nat), x < 256 →
        ((⟨pack_uint 1 e x, 0, e⟩ : BinaryPayloadDecoder).decode_8bit_uint).2 = .ok x) ∧
    (∀ (e : Endian) (x : Nat), x < 65536 →
        ((⟨pack_uint 2 e x, 0, e⟩ : BinaryPayloadDecoder).decode_16bit_uint).2 = .ok x) ∧
    (∀ (e : Endian) (x : Nat), x < 4294967296 →
        ((⟨pack_uint 4 e x, 0, e⟩ : BinaryPayloadDecoder).decode_32bit_uint).2 = .ok x) ∧
    (∀ (e : Endian) (x : Nat), x < 4294967296 →
        ((⟨pack_uint 4 e x, 0, e⟩ : BinaryPayloadDecoder).decode_32bit_ulong).2 = .ok x) ∧
    (∀ (e : Endian) (x : Nat), x < 18446744073709551616 →
        ((⟨pack_uint 8 e x, 0, e⟩ : BinaryPayloadDecoder).decode_64bit_uint).2 = .ok x) ∧
    (∀ (e : Endian) (i : Int), -128 ≤ i → i < 128 →
        ((⟨pack_int 1 e i, 0, e⟩ : BinaryPayloadDecoder).decode_8bit_int).2 = .ok i) ∧
    (∀ (e : Endian) (i : Int), -32768 ≤ i → i < 32768 →
        ((⟨pack_int 2 e i, 0, e⟩ : BinaryPayloadDecoder).decode_16bit_int).2 = .ok i) ∧
    (∀ (e : Endian) (i : Int), -2147483648 ≤ i → i < 2147483648 →
        ((⟨pack_int 4 e i, 0, e⟩ : BinaryPayloadDecoder).decode_32bit_int).2 = .ok i) ∧
    (∀ (e : Endian) (i : Int), -2147483648 ≤ i → i < 2147483648 →
        ((⟨pack_int 4 e i, 0, e⟩ : BinaryPayloadDecoder).decode_32bit_long).2 = .ok i) ∧
    (∀ (e : Endian) (i : Int), -9223372036854775808 ≤ i → i < 9223372036854775808 →
        ((⟨pack_int 8 e i, 0, e⟩ : BinaryPayloadDecoder).decode_64bit_int).2 = .ok i) ∧
    (∀ (e : Endian) (x : Nat), x < 4294967296 →
        ((⟨pack_uint 4 e x, 0, e⟩ : BinaryPayloadDecoder).decode_32bit_float).2 = .ok x) ∧
    (∀ (e : Endian) (x : Nat), x < 18446744073709551616 →
        ((⟨pack_uint 8 e x, 0, e⟩ : BinaryPayloadDecoder).decode_64bit_float).2 = .ok x) := by
  refine ⟨?_, ?_, ?_, ?_, ?_, ?_, ?_, ?_, ?_, ?_, ?_, ?_⟩
  · intro e x hx
    show unpack_uint 1 e (pySlice (pack_uint 1 e x) 0 1) = Except.ok x
    rw [pySlice_exact _ 1 (length_pack_uint 1 e x),
      unpack_uint_pack 1 e x (by norm_num; omega)]
  · intro e x hx
    show unpack_uint 2 e (pySlice (pack_uint 2 e x) 0 2) = Except.ok x
    rw [pySlice_exact _ 2 (length_pack_uint 2 e x),
      unpack_uint_pack 2 e x (by norm_num; omega)]
  · intro e x hx
    show unpack_uint 4 e (pySlice (pack_uint 4 e x) 0 4) = Except.ok x
    rw [pySlice_exact _ 4 (length_pack_uint 4 e x),
      unpack_uint_pack 4 e x (by norm_num; omega)]
  · intro e x hx
    show unpack_uint 4 e (pySlice (pack_uint 4 e x) 0 4) = Except.ok x
    rw [pySlice_exact _ 4 (length_pack_uint 4 e x),
      unpack_uint_pack 4 e x (by norm_num; omega)]
  · intro e x hx
    show unpack_uint 8 e (pySlice (pack_uint 8 e x) 0 8) = Except.ok x
    rw [pySlice_exact _ 8 (length_pack_uint 8 e x),
      unpack_uint_pack 8 e x (by norm_num; omega)]
  · intro e i h1 h2
    show unpack_int 1 e (pySlice (pack_int 1 e i) 0 1) = Except.ok i
    rw [pySlice_exact _ 1 (length_pack_int 1 e i), pack_int,
      unpack_int_pack_uint 1 e _ (by norm_num; omega), toSigned_emod_1 i h1 h2]
  · intro e i h1 h2
    show unpack_int 2 e (pySlice (pack_int 2 e i) 0 2) = Except.ok i
    rw [pySlice_exact _ 2 (length_pack_int 2 e i), pack_int,
      unpack_int_pack_uint 2 e _ (by norm_num; omega), toSigned_emod_2 i h1 h2]
  · intro e i h1 h2
    show unpack_int 4 e (pySlice (pack_int 4 e i) 0 4) = Except.ok i
    rw [pySlice_exact _ 4 (length_pack_int 4 e i), pack_int,
      unpack_int_pack_uint 4 e _ (by norm_num; omega), toSigned_emod_4 i h1 h2]
  · intro e i h1 h2
    show unpack_int 4 e (pySlice (pack_int 4 e i) 0 4) = Except.ok i
    rw [pySlice_exact _ 4 (length_pack_int 4 e i), pack_int,
      unpack_int_pack_uint 4 e _ (by norm_num; omega), toSigned_emod_4 i h1 h2]
  · intro e i h1 h2
    show unpack_int 8 e (pySlice (pack_int 8 e i) 0 8) = Except.ok i
    rw [pySlice_exact _ 8 (length_pack_int 8 e i), pack_int,
      unpack_int_pack_uint 8 e _ (by norm_num; omega), toSigned_emod_8 i h1 h2]
  · intro e x hx
    show unpack_ieee 4 e (pySlice (pack_uint 4 e x) 0 4) = Except.ok x
    rw [pySlice_exact _ 4 (length_pack_uint 4 e x),
      unpack_ieee_pack 4 e x (by norm_num; omega)]
  · intro e x hx
    show unpack_ieee 8 e (pySlice (pack_uint 8 e x) 0 8) = Except.ok x
    rw [pySlice_exact _ 8 (length_pack_uint 8 e x),
      unpack_ieee_pack 8 e x (by norm_num; omega)]

/-- Witness for C3 at concrete values, including the IEEE special bit
patterns: 2139095040 is binary32 plus infinity, 2143289344 a binary32 NaN,
2147483648 binary32 minus zero, 9218868437227405312 binary64 plus
infinity. -/
theorem claim3_witness :
    ((⟨pack_uint 2 .big 65535, 0, .big⟩ : BinaryPayloadDecoder).decode_16bit_uint).2 =
      .ok 65535 ∧
    ((⟨pack_int 2 .little (-32768), 0, .little⟩ :
        BinaryPayloadDecoder).decode_16bit_int).2 = .ok (-32768) ∧
    ((⟨pack_int 8 .big (-1), 0, .big⟩ : BinaryPayloadDecoder).decode_64bit_int).2 =
      .ok (-1) ∧
    ((⟨pack_uint 4 .big 2139095040, 0, .big⟩ :
        BinaryPayloadDecoder).decode_32bit_float).2 = .ok 2139095040 ∧
    ((⟨pack_uint 4 .little 2143289344, 0, .little⟩ :
        BinaryPayloadDecoder).decode_32bit_float).2 = .ok 2143289344 ∧
    ((⟨pack_uint 4 .big 2147483648, 0, .big⟩ :
        BinaryPayloadDecoder).decode_32bit_float).2 = .ok 2147483648 ∧
    ((⟨pack_uint 8 .big 9218868437227405312, 0, .big⟩ :
        BinaryPayloadDecoder).decode_64bit_float).2 = .ok 9218868437227405312 :=
  ⟨claim3_roundtrip_law.2.1 .big 65535 (by norm_num),
    claim3_roundtrip_law.2.2.2.2.2.2.1 .little (-32768) (by norm_num) (by norm_num),
    claim3_roundtrip_law.2.2.2.2.2.2.2.2.2.1 .big (-1) (by norm_num) (by norm_num),
    claim3_roundtrip_law.2.2.2.2.2.2.2.2.2.2.1 .big 2139095040 (by norm_num),
    claim3_roundtrip_law.2.2.2.2.2.2.2.2.2.2.1 .little 2143289344 (by norm_num),
    claim3_roundtrip_law.2.2.2.2.2.2.2.2.2.2.1 .big 2147483648 (by norm_num),
    claim3_roundtrip_law.2.2.2.2.2.2.2.2.2.2.2 .big 9218868437227405312 (by norm_num)⟩

/-- C5: the factory classmethods fail with ParameterException exactly when
given a non-list argument (and then no decoder exists), and on every list
argument (registers all in the 16-bit range; any booleans for coils) they
construct a decoder whose cursor is 0. -/
theorem claim5_factory_contract :
    (∀ (n : Int) (e : Endian),
        BinaryPayloadDecoder.fromRegisters (.scalar n) e = .error .parameterException ∧
        BinaryPayloadDecoder.fromCoils (.scalar n) e = .error .parameterException) ∧
    (∀ (input : RegInput) (e : Endian),
        BinaryPayloadDecoder.fromRegisters input e = .error .parameterException ↔
          ∃ n, input = .scalar n) ∧
    (∀ (input : CoilInput) (e : Endian),
        BinaryPayloadDecoder.fromCoils input e = .error .parameterException ↔
          ∃ n, input = .scalar n) ∧
    (∀ (regs : List Nat) (e : Endian), (∀ x ∈ regs, x < 65536) →
        ∃ d, BinaryPayloadDecoder.fromRegisters (.list regs) e = .ok d ∧
          d.pointer = 0 ∧ d.endian = e) ∧
    (∀ (bs : List Bool) (e : Endian),
        ∃ d, BinaryPayloadDecoder.fromCoils (.list bs) e = .ok d ∧
          d.pointer = 0 ∧ d.endian = e) := by
  refine ⟨fun n e => ⟨rfl, rfl⟩, ?_, ?_, ?_, ?_⟩
  · intro input e
    constructor
    · intro herr
      cases input with
      | scalar n => exact ⟨n, rfl⟩
      | list regs =>
        exfalso
        simp only [BinaryPayloadDecoder.fromRegisters] at herr
        cases hp : packRegisters e regs with
        | ok l =>
          rw [hp, except_bind_ok] at herr
          exact Except.noConfusion herr
        | error err =>
          rw [hp, except_bind_error] at herr
          injection herr with hh
          exact packRegisters_not_param e regs (by rw [hp, hh])
    · rintro ⟨n, rfl⟩
      rfl
  · intro input e
    constructor
    · intro herr
      cases input with
      | scalar n => exact ⟨n, rfl⟩
      | list bs => exact Except.noConfusion herr
    · rintro ⟨n, rfl⟩
      rfl
  · intro regs e h
    refine ⟨⟨(regs.map (pack_uint 2 e)).flatten, 0, e⟩, ?_, rfl, rfl⟩
    simp only [BinaryPayloadDecoder.fromRegisters]
    rw [packRegisters_ok e regs h]
    rfl
  · intro bs e
    exact ⟨⟨pack_bitstring bs, 0, e⟩, rfl, rfl, rfl⟩

/-- Witness for C5 at the spec's concrete example: the scalar 42 under
little-endian order fails with ParameterException, and a genuine register
list constructs a decoder with cursor 0. -/
theorem claim5_witness :
    BinaryPayloadDecoder.fromRegisters (.scalar 42) .little =
      .error .parameterException ∧
    (∃ d, BinaryPayloadDecoder.fromRegisters (.list [1, 2]) .big = .ok d ∧
      d.pointer = 0 ∧ d.endian = .big) :=
  ⟨(claim5_factory_contract.1 42 .little).1,
    claim5_factory_contract.2.2.2.1 [1, 2] .big (by norm_num)⟩

/-- C8: with at least cursor + size bytes in the buffer, decode_string
returns exactly the size raw bytes starting at the cursor, with no
interpretation, and advances the cursor by exactly size while leaving the
buffer unchanged. -/
theorem claim8_decode_string_exact (s : BinaryPayloadDecoder) (n : Nat)
    (h : s.pointer + n ≤ s.payload.length) :
    (s.decode_string n).2 = (s.payload.drop s.pointer).take n ∧
    (s.decode_string n).2.length = n ∧
    (s.decode_string n).1.pointer = s.pointer + n ∧
    (s.decode_string n).1.payload = s.payload := by
  refine ⟨?_, ?_, rfl, rfl⟩
  · show pySlice s.payload (s.pointer + n - n) (s.pointer + n) = _
    rw [Nat.add_sub_cancel, pySlice_eq_drop_take]
  · show (pySlice s.payload (s.pointer + n - n) (s.pointer + n)).length = n
    rw [Nat.add_sub_cancel, length_pySlice]
    omega

/-- Witness for C8: decode_string 5 on a six-byte buffer returns the first
five bytes and advances the cursor to 5. -/
theorem claim8_witness :
    ((⟨[10, 20, 30, 40, 50, 60], 0, .big⟩ :
        BinaryPayloadDecoder).decode_string 5).2 = [10, 20, 30, 40, 50] ∧
    ((⟨[10, 20, 30, 40, 50, 60], 0, .big⟩ :
        BinaryPayloadDecoder).decode_string 5).1.pointer = 5 := by
  have h := claim8_decode_string_exact ⟨[10, 20, 30, 40, 50, 60], 0, .big⟩ 5
    (by norm_num)
  refine ⟨?_, h.2.2.1⟩
  rw [h.1]
  rfl

end Modpy
